import Mathlib

/-!
Formal model of the real-time voice companion session of the strike-Tips
front-end (`src/unnamed/part_007`, the `AIChatCompanion` component).

The TypeScript source is shallowly embedded: the pure helpers become Lean
functions, the mutable React refs and state become an explicit `CompState`
record, and the side-effecting browser calls become an `Effect` datatype
emitted by the step functions.  Numbers held in JavaScript doubles are
modelled as exact rationals (every arithmetic operation the embedded code
performs on them - max, addition of chunk durations, division by powers of
two - is exact on the doubles involved), and 16-bit machine integers carry
the explicit wrap-around of the `Int16Array` conversion.

A note on the event model: the component is single-threaded and
callback-driven.  Each `onmessage` invocation runs to completion before the
next browser task starts (its only `await` is on an already-resolved
promise, whose continuation drains from the microtask queue first), so one
inbound message is modelled as one atomic step.  Promise continuations
registered by the capture callback (`sessionPromiseRef.current.then(...)`)
are genuinely deferred, so they are modelled as separate events in the
capture model below.
-/

namespace StrikeTips

/-! ### Audio transport codec (part_007 lines 18-40)

`encode` builds a binary string with `String.fromCharCode` over the bytes
and applies the browser builtin `btoa`; `decode` applies `atob` and reads
the char codes back.  `fromCharCode`/`charCodeAt` are the identity on codes
below 256, so the composition is exactly base64 over the byte list, which
is what is embedded here (3 bytes to 4 alphabet characters, with `=`
padding on a trailing group of 1 or 2 bytes, per RFC 4648 as `btoa`/`atob`
implement it). -/

/-- One 6-bit value to its base64 alphabet character, as produced by the
browser builtin `btoa` that `encode` calls: indices 0-25 map to `A`-`Z`,
26-51 to `a`-`z`, 52-61 to `0`-`9`, 62 to `+`, 63 to `/`. -/
def sextetToChar (v : Nat) : Char :=
  if v < 26 then Char.ofNat (65 + v)
  else if v < 52 then Char.ofNat (71 + v)
  else if v < 62 then Char.ofNat (v - 4)
  else if v = 62 then '+'
  else '/'

/-- Inverse alphabet lookup used by `atob` when `decode` runs. -/
def charToSextet (c : Char) : Nat :=
  if 65 ≤ c.toNat ∧ c.toNat ≤ 90 then c.toNat - 65
  else if 97 ≤ c.toNat ∧ c.toNat ≤ 122 then c.toNat - 71
  else if 48 ≤ c.toNat ∧ c.toNat ≤ 57 then c.toNat + 4
  else if c.toNat = 43 then 62
  else 63

/-- Base64 encoding of a byte list: the behaviour of `btoa` on the binary
string that `encode` (part_007 lines 18-25) builds from the bytes. -/
def encodeChunks : List Nat → List Char
  | [] => []
  | [b0] =>
      [sextetToChar (b0 / 4), sextetToChar (b0 % 4 * 16), '=', '=']
  | [b0, b1] =>
      [sextetToChar (b0 / 4), sextetToChar (b0 % 4 * 16 + b1 / 16),
       sextetToChar (b1 % 16 * 4), '=']
  | b0 :: b1 :: b2 :: rest =>
      sextetToChar (b0 / 4) :: sextetToChar (b0 % 4 * 16 + b1 / 16) ::
      sextetToChar (b1 % 16 * 4 + b2 / 64) :: sextetToChar (b2 % 64) ::
      encodeChunks rest

/-- Base64 decoding back to bytes: the behaviour of `atob` plus the
`charCodeAt` loop of `decode` (part_007 lines 32-40) on well-formed base64
text (which is all `decode` ever receives from the transport). -/
def decodeChunks : List Char → List Nat
  | c0 :: c1 :: c2 :: c3 :: rest =>
      if c2 = '=' then
        [charToSextet c0 * 4 + charToSextet c1 / 16]
      else if c3 = '=' then
        [charToSextet c0 * 4 + charToSextet c1 / 16,
         charToSextet c1 % 16 * 16 + charToSextet c2 / 4]
      else
        (charToSextet c0 * 4 + charToSextet c1 / 16) ::
        (charToSextet c1 % 16 * 16 + charToSextet c2 / 4) ::
        (charToSextet c2 % 4 * 64 + charToSextet c3) ::
        decodeChunks rest
  | _ => []

/-- `encode(bytes)` of part_007 lines 18-25: bytes to transport text. -/
def encode (bytes : List Nat) : String :=
  String.mk (encodeChunks bytes)

/-- `decode(base64)` of part_007 lines 32-40: transport text to bytes. -/
def decode (base64 : String) : List Nat :=
  decodeChunks base64.data

/-! ### Data model of the component -/

/-- Speaker role of a committed transcript turn. -/
inductive Role
  | user
  | model
deriving DecidableEq

/-- A committed, immutable transcript turn (`Transcript` type in the
source). -/
structure Transcript where
  id : String
  role : Role
  text : String
deriving DecidableEq

/-- A function call issued by the remote model (`fc` in the source's
`message.toolCall.functionCalls` loop). -/
structure FunctionCall where
  id : String
  name : String
deriving DecidableEq

/-- The payload of `session.sendToolResponse`: one function response with
the id and name of the call it answers. -/
structure ToolResponse where
  id : String
  name : String
  result : String
deriving DecidableEq

/-- One inbound `LiveServerMessage`, restricted to the fields the
`onmessage` handler reads. `audioData` holds the bytes carried in
`serverContent.modelTurn.parts[0].inlineData.data`, already base64-decoded
(the handler immediately decodes them). -/
structure ServerMessage where
  toolCalls : List FunctionCall := []
  inputTranscription : Option String := none
  outputTranscription : Option String := none
  turnComplete : Bool := false
  audioData : Option (List Nat) := none
  interrupted : Bool := false
deriving DecidableEq

/-- Observable side effects of the component on the browser and the
transport.  Handles of browser objects are opaque numerals. -/
inductive Effect
  | cancelAnimation (h : Nat)
  | stopSource (h : Nat)
  | startSource (h : Nat) (time : ℚ)
  | disconnectNode (h : Nat)
  | closeContext (h : Nat)
  | stopTracks (h : Nat)
  | sendToolResponse (r : ToolResponse)
  | refreshData
  | scheduleNavigate (delayMs : Nat) (target : String)
deriving DecidableEq

/-- The component's mutable state: the React `useState` values and every
`useRef` cell of `AIChatCompanion`.  `Option Nat` fields are nullable refs
holding opaque browser-object handles. -/
structure CompState where
  isConnecting : Bool := false
  isLive : Bool := false
  error : Option String := none
  transcriptionHistory : List Transcript := []
  currentUserTranscription : String := ""
  currentModelTranscription : String := ""
  micVolume : ℚ := 0
  sessionPromise : Option Nat := none
  mediaStream : Option Nat := none
  inputAudioContext : Option Nat := none
  outputAudioContext : Option Nat := none
  scriptProcessor : Option Nat := none
  mediaStreamSource : Option Nat := none
  playingAudioSources : List Nat := []
  nextAudioStartTime : ℚ := 0
  analyser : Option Nat := none
  animationFrameId : Option Nat := none
deriving DecidableEq

/-! ### Tool-call handling (part_007 lines 352-376) -/

/-- The literal result text the source sends back for `refresh_race_data`
(the source writes the first contraction as one word with an apostrophe). -/
def toolResultText : String :=
  "Done. I have refreshed the race data. Taking you to the dashboard now."

/-- The `message.toolCall` branch of `onmessage`: iterate over the
function calls; a call named `refresh_race_data` triggers the data
refresh, sends one `sendToolResponse` on the current session promise (when
one is held), and schedules the delayed navigation; a call with any other
name falls through the `if` and produces nothing. -/
def toolCallStep (session : Option Nat) : List FunctionCall → List Effect
  | [] => []
  | fc :: rest =>
      (if fc.name = "refresh_race_data" then
        Effect.refreshData ::
        (match session with
         | some _ => [Effect.sendToolResponse ⟨fc.id, fc.name, toolResultText⟩]
         | none => []) ++
        [Effect.scheduleNavigate 5000 "dashboard"]
      else []) ++ toolCallStep session rest

/-- The tool responses among a list of emitted effects. -/
def toolResponses (effects : List Effect) : List ToolResponse :=
  effects.filterMap (fun e =>
    match e with
    | Effect.sendToolResponse r => some r
    | _ => none)

/-! ### Transcript assembly (part_007 lines 378-404)

The `onmessage` closure is created once, inside `handleConnect`, and is
never re-created during the session.  The identifiers
`currentUserTranscription` / `currentModelTranscription` inside it are
therefore the React state values of the render in which `handleConnect`
ran - a connect-time snapshot - while the functional updaters
`set...(prev => prev + text)` always read the live state.  The snapshot is
passed below as the constants `capUser` / `capModel`; the live state lives
in `CompState`. -/

/-- Whitespace as recognized by the JavaScript `String.prototype.trim`
the commit step applies (restricted to the common whitespace characters;
none of the protocol text involves the exotic Unicode space classes). -/
def isJsSpace (c : Char) : Bool :=
  c = ' ' ∨ c = '\t' ∨ c = '\n' ∨ c = '\r'

/-- Strip leading and trailing whitespace from a char list. -/
def trimChars (l : List Char) : List Char :=
  ((l.dropWhile isJsSpace).reverse.dropWhile isJsSpace).reverse

/-- The JavaScript `trim()` builtin used on the assembled turn text. -/
def jsTrim (s : String) : String :=
  String.mk (trimChars s.data)

/-- The transcription part of `onmessage` for one inbound message:
append deltas to the live accumulators; on `turnComplete`, commit
`capRole ++ delta-of-this-message` (the snapshot plus only the delta
carried in the same message), when non-empty after trimming, and clear the
accumulators.  `now` stands for `Date.now()` in the generated ids. -/
def transcriptionStep (capUser capModel : String) (now : Nat)
    (msg : ServerMessage) (s : CompState) : CompState :=
  let userText := match msg.inputTranscription with
    | some t => t
    | none => ""
  let modelText := match msg.outputTranscription with
    | some t => t
    | none => ""
  let s1 := { s with
    currentUserTranscription := s.currentUserTranscription ++ userText,
    currentModelTranscription := s.currentModelTranscription ++ modelText }
  if msg.turnComplete then
    let fullInput := capUser ++ userText
    let fullOutput := capModel ++ modelText
    let withUser :=
      if jsTrim fullInput ≠ "" then
        s1.transcriptionHistory ++
          [⟨"user-" ++ toString now, Role.user, jsTrim fullInput⟩]
      else s1.transcriptionHistory
    let withModel :=
      if jsTrim fullOutput ≠ "" then
        withUser ++ [⟨"model-" ++ toString now, Role.model, jsTrim fullOutput⟩]
      else withUser
    { s1 with
      transcriptionHistory := withModel,
      currentUserTranscription := "",
      currentModelTranscription := "" }
  else s1

/-- A sequence of inbound messages folded through the transcription part
of `onmessage`, with the connect-time snapshot held fixed (the closure is
never re-created). -/
def processMessages (capUser capModel : String) (now : Nat)
    (msgs : List ServerMessage) (s : CompState) : CompState :=
  msgs.foldl (fun st m => transcriptionStep capUser capModel now m st) s

/-- The message sequence of the turn-assembly scenario: model deltas
`"Hel"` and `"lo"` in two messages, then a bare `turnComplete`. -/
def staleClosureMessages : List ServerMessage :=
  [{ outputTranscription := some "Hel" },
   { outputTranscription := some "lo" },
   { turnComplete := true }]

/-! ### Playback scheduling (part_007 lines 406-423) -/

/-- Duration in seconds of a decoded inbound chunk: the byte list is
viewed as 16-bit samples (`bytes / 2` frames, mono) at the fixed 24000 Hz
output rate, exactly as `decodeAudioData` computes it. -/
def chunkDuration (bytes : List Nat) : ℚ :=
  ((bytes.length : ℚ) / 2) / 24000

/-- An inbound message carrying only an audio chunk. -/
def audioMsg (bytes : List Nat) : ServerMessage :=
  { audioData := some bytes }

/-- The audio-output part of `onmessage` for one message: when the message
carries audio and the output context is held, clamp `nextAudioStartTime`
to `max(previous, currentTime)` (the single clock read, `clock`), start a
fresh source at that time, advance `nextAudioStartTime` by the chunk
duration, and record the source in the playing set.  Otherwise a no-op. -/
def audioStep (clock : ℚ) (msg : ServerMessage) (s : CompState)
    (sourceHandle : Nat) : CompState × List Effect :=
  match msg.audioData, s.outputAudioContext with
  | some bytes, some _ =>
      let start := max s.nextAudioStartTime clock
      ({ s with
          nextAudioStartTime := start + chunkDuration bytes,
          playingAudioSources := s.playingAudioSources ++ [sourceHandle] },
       [Effect.startSource sourceHandle start])
  | _, _ => (s, [])

/-- One processed inbound audio chunk: the clock value read during its
message, its bytes, the state after the step, and the emitted effects. -/
structure AudioEntry where
  clock : ℚ
  bytes : List Nat
  state : CompState
  effects : List Effect
deriving DecidableEq

/-- Fold a sequence of `(clock reading, chunk bytes, fresh source handle)`
triples through `audioStep`, collecting one `AudioEntry` per chunk. -/
def audioTrace (s : CompState) : List (ℚ × List Nat × Nat) → List AudioEntry
  | [] => []
  | (t, bytes, hSrc) :: rest =>
      let r := audioStep t (audioMsg bytes) s hSrc
      { clock := t, bytes := bytes, state := r.1, effects := r.2 } ::
        audioTrace r.1 rest

/-- A virtual entry standing for the state before the first chunk, used to
anchor the chain of scheduling obligations. -/
def baseEntry (s : CompState) : AudioEntry :=
  { clock := 0, bytes := [], state := s, effects := [] }

/-- The playback start times among a list of emitted effects. -/
def startsOf (effects : List Effect) : List ℚ :=
  effects.filterMap (fun e =>
    match e with
    | Effect.startSource _ t => some t
    | _ => none)

/-! ### Barge-in interruption (part_007 lines 425-430) -/

/-- The `serverContent.interrupted` branch of `onmessage`: stop every
playing source, clear the set, and assign `nextAudioStartTime = 0` (the
source writes the literal `0`, not the device clock). -/
def interruptedStep (msg : ServerMessage) (s : CompState) :
    CompState × List Effect :=
  if msg.interrupted then
    ({ s with playingAudioSources := [], nextAudioStartTime := 0 },
     s.playingAudioSources.map Effect.stopSource)
  else (s, [])

/-- A mid-session state: two sources scheduled, playback cursor at 5 s. -/
def interruptedExampleState : CompState :=
  { nextAudioStartTime := 5, playingAudioSources := [1, 2],
    outputAudioContext := some 0, sessionPromise := some 0 }

/-! ### Teardown (part_007 lines 186-225) -/

/-- The `cleanup` callback, in source order: clear the live/connecting
flags, cancel the visualization frame, zero the mic volume, stop and clear
the playing sources, disconnect and null the analyser / script processor /
media-stream source nodes, close both audio contexts (their `close()`
rejections are swallowed by `.catch`), stop the microphone tracks, and
null the session promise.  `error`, the transcript state and
`nextAudioStartTime` are untouched. -/
def cleanup (s : CompState) : CompState × List Effect :=
  let animEffects :=
    match s.animationFrameId with
    | some h => [Effect.cancelAnimation h]
    | none => []
  let stopEffects := s.playingAudioSources.map Effect.stopSource
  let analyserEffects :=
    match s.analyser with
    | some h => [Effect.disconnectNode h]
    | none => []
  let processorEffects :=
    match s.scriptProcessor with
    | some h => [Effect.disconnectNode h]
    | none => []
  let sourceNodeEffects :=
    match s.mediaStreamSource with
    | some h => [Effect.disconnectNode h]
    | none => []
  let inputCtxEffects :=
    match s.inputAudioContext with
    | some h => [Effect.closeContext h]
    | none => []
  let outputCtxEffects :=
    match s.outputAudioContext with
    | some h => [Effect.closeContext h]
    | none => []
  let trackEffects :=
    match s.mediaStream with
    | some h => [Effect.stopTracks h]
    | none => []
  ({ s with
      isLive := false, isConnecting := false,
      animationFrameId := none, micVolume := 0,
      playingAudioSources := [],
      analyser := none, scriptProcessor := none, mediaStreamSource := none,
      inputAudioContext := none, outputAudioContext := none,
      mediaStream := none, sessionPromise := none },
   animEffects ++ stopEffects ++ analyserEffects ++ processorEffects ++
     sourceNodeEffects ++ inputCtxEffects ++ outputCtxEffects ++
     trackEffects)

/-- The ResourceSet of the spec is empty: every acquired handle ref is
null and the playing-source set is empty. -/
def resourcesEmpty (s : CompState) : Prop :=
  s.mediaStream = none ∧ s.inputAudioContext = none ∧
  s.outputAudioContext = none ∧ s.scriptProcessor = none ∧
  s.analyser = none ∧ s.mediaStreamSource = none ∧
  s.playingAudioSources = [] ∧ s.sessionPromise = none

/-! ### Connection establishment (part_007 lines 248-277 and 443-448) -/

/-- Error text thrown when `process.env.API_KEY` is absent. -/
def configErrorText : String :=
  "A configuration error occurred. Please contact support."

/-- Error text thrown when `getUserMedia` rejects. -/
def micDeniedText : String :=
  "Microphone access denied. Please allow it in your browser settings and try again."

/-- Fallback text of the catch block, used when the caught error carries
an empty message (the `err.message || ...` disjunction). -/
def unknownErrorText : String :=
  "An unknown error occurred. Please check your connection and try again."

/-- The environment a connect attempt runs against: whether the API key
is configured, whether the microphone permission is granted, whether each
`new AudioContext(...)` allocation and each awaited `resume()` succeeds
(a context that is not suspended counts as a succeeding resume), the
handles the browser returns on success, and the opaque `err.message` a
failing browser call would carry. -/
structure ConnectEnv where
  apiKeyPresent : Bool
  micGranted : Bool
  inputContextOk : Bool := true
  outputContextOk : Bool := true
  inputResumeOk : Bool := true
  outputResumeOk : Bool := true
  micHandle : Nat := 0
  inputContextHandle : Nat := 0
  outputContextHandle : Nat := 0
  sessionHandle : Nat := 0
  deviceErrorMessage : String := "The AudioContext was not allowed to start."
deriving DecidableEq

/-- The catch block of `handleConnect`, applied to whatever state the
attempt had reached when the error was thrown: `setError(err.message ||
fallback)`, `setIsConnecting(false)`, then `cleanup()` (which rolls back
every partially acquired resource). -/
def connectCatch (message : String) (s : CompState) : CompState :=
  (cleanup { s with
      error := some (if message = "" then unknownErrorText else message),
      isConnecting := false }).1

/-- `handleConnect` up to the point where the connection promise is
stored, with every acquisition failure point of the source in order: the
API-key check, `getUserMedia` (its rejection is rethrown as the
microphone-denied error), the two `new AudioContext(...)` allocations,
and the two awaited `resume()` calls - the latter four can throw after
the microphone stream is already acquired.  Any throw reaches
`connectCatch`.  Returns the resulting state and the list of intermediate
states reached during the attempt (after `setIsConnecting(true)`, after
the microphone is acquired, and after each context is allocated). -/
def handleConnect (env : ConnectEnv) (s : CompState) :
    CompState × List CompState :=
  if s.isLive || s.isConnecting then (s, [])
  else
    let s1 := { s with isConnecting := true, error := none }
    if env.apiKeyPresent = false then
      (connectCatch configErrorText s1, [s1])
    else if env.micGranted = false then
      (connectCatch micDeniedText s1, [s1])
    else
      let s2 := { s1 with mediaStream := some env.micHandle }
      if env.inputContextOk = false then
        (connectCatch env.deviceErrorMessage s2, [s1, s2])
      else
        let s3 := { s2 with inputAudioContext := some env.inputContextHandle }
        if env.outputContextOk = false then
          (connectCatch env.deviceErrorMessage s3, [s1, s2, s3])
        else
          let s4 := { s3 with
            outputAudioContext := some env.outputContextHandle }
          if env.inputResumeOk = false then
            (connectCatch env.deviceErrorMessage s4, [s1, s2, s3, s4])
          else if env.outputResumeOk = false then
            (connectCatch env.deviceErrorMessage s4, [s1, s2, s3, s4])
          else
            ({ s4 with sessionPromise := some env.sessionHandle },
             [s1, s2, s3, s4])

/-- A connect environment with the API key configured and the microphone
denied. -/
def micDeniedEnv : ConnectEnv :=
  { apiKeyPresent := true, micGranted := false }

/-- A connect environment that fails late: the microphone is granted and
both contexts are allocated, then the input context's `resume()` rejects,
leaving three partially acquired resources to roll back. -/
def resumeFailEnv : ConnectEnv :=
  { apiKeyPresent := true, micGranted := true, inputResumeOk := false }

/-! ### The full inbound message handler -/

/-- The whole `onmessage` callback for one inbound message, in source
order: tool-call branch, transcription branch, audio-output branch,
interruption branch. -/
def onmessage (capUser capModel : String) (now sourceHandle : Nat)
    (clock : ℚ) (msg : ServerMessage) (s : CompState) :
    CompState × List Effect :=
  let toolEffects := toolCallStep s.sessionPromise msg.toolCalls
  let s1 := transcriptionStep capUser capModel now msg s
  let r2 := audioStep clock msg s1 sourceHandle
  let r3 := interruptedStep msg r2.1
  (r3.1, toolEffects ++ r2.2 ++ r3.2)

/-! ### Outbound capture and the teardown race
(part_007 lines 323-346 and 202-224)

`onaudioprocess` reads `sessionPromiseRef.current` when it fires; if the
ref is non-null it registers a send on that promise with `.then`.  The
continuation runs later and uses the captured session without re-checking
the ref.  `cleanup` nulls the ref.  The events below interleave callback
firings, continuation runs and teardown. -/

/-- State of the capture/teardown interplay.  `pendingSends` are frames
whose `.then` continuation is registered but has not run; `sentFrames` is
everything transmitted; `sentAfterTeardown` the part transmitted after
teardown ran; `pendingAtTeardown` records (for the analysis) the pending
queue at the moment teardown ran. -/
structure CaptureState where
  sessionPromise : Option Nat := none
  pendingSends : List Nat := []
  sentFrames : List Nat := []
  sentAfterTeardown : List Nat := []
  tornDown : Bool := false
  pendingAtTeardown : List Nat := []
deriving DecidableEq

/-- Events of the capture model: the script-processor callback firing with
a frame, one registered promise continuation running, and `cleanup`. -/
inductive CaptureEvent
  | audioProcess (frame : Nat)
  | promiseResolve
  | teardown
deriving DecidableEq

/-- One event step.  A firing callback reads the current ref: null means
no-op, otherwise it registers the frame on the promise.  A continuation
transmits the oldest registered frame unconditionally (the source performs
no liveness re-check inside the `.then`).  Teardown nulls the ref. -/
def captureStep (s : CaptureState) : CaptureEvent → CaptureState
  | CaptureEvent.audioProcess f =>
      match s.sessionPromise with
      | some _ => { s with pendingSends := s.pendingSends ++ [f] }
      | none => s
  | CaptureEvent.promiseResolve =>
      match s.pendingSends with
      | [] => s
      | f :: rest =>
          { s with
            pendingSends := rest,
            sentFrames := s.sentFrames ++ [f],
            sentAfterTeardown :=
              if s.tornDown then s.sentAfterTeardown ++ [f]
              else s.sentAfterTeardown }
  | CaptureEvent.teardown =>
      { s with
        sessionPromise := none, tornDown := true,
        pendingAtTeardown :=
          if s.tornDown then s.pendingAtTeardown else s.pendingSends }

/-- A capture run starting from a live session holding handle `h`. -/
def captureRun (h : Nat) (evs : List CaptureEvent) : CaptureState :=
  evs.foldl captureStep { sessionPromise := some h }

/-- Invariant of every reachable capture state: before teardown nothing
has been sent after teardown; after teardown the ref is null and the
frames pending at teardown are exactly those since transmitted after
teardown plus those still pending. -/
def CaptureInv (s : CaptureState) : Prop :=
  (s.tornDown = false →
    s.sentAfterTeardown = [] ∧ s.pendingAtTeardown = []) ∧
  (s.tornDown = true →
    s.sessionPromise = none ∧
    s.pendingAtTeardown = s.sentAfterTeardown ++ s.pendingSends)

/-! ### Outbound quantization (part_007 lines 323-337)

The capture callback writes `inputData[i] * 32768` into an `Int16Array`
slot.  Per the JavaScript semantics this truncates the double toward zero
and then wraps it into the signed 16-bit range.  The double values and the
exact multiplication by 32768 are modelled as rationals. -/

/-- Truncation toward zero, as the `Int16Array` element conversion applies
to the double before wrapping. -/
def ratTrunc (q : ℚ) : ℤ :=
  if 0 ≤ q then ⌊q⌋ else ⌈q⌉

/-- Wrap an integer into the signed 16-bit range, as `Int16Array` storage
does (reduce mod 65536, reinterpret the top half as negative). -/
def wrapInt16 (t : ℤ) : ℤ :=
  (t + 32768) % 65536 - 32768

/-- The conversion `int16[i] = inputData[i] * 32768` applied to one
normalized sample. -/
def quantizeSample (s : ℚ) : ℤ :=
  wrapInt16 (ratTrunc (s * 32768))

/-- The whole capture-buffer conversion loop. -/
def quantizeFrame (frame : List ℚ) : List ℤ :=
  frame.map quantizeSample

/-! ### Microphone volume visualization (part_007 lines 165-178) -/

/-- Byte from the analyser's time-domain array mapped to the normalized
range: `amplitude / 128 - 1`. -/
def normalizedSample (b : Nat) : ℚ :=
  (b : ℚ) / 128 - 1

/-- `sumSquares` accumulated over the analyser data. -/
def sumSquares (data : List Nat) : ℚ :=
  (data.map (fun b => normalizedSample b * normalizedSample b)).sum

/-- The radicand `sumSquares / dataArray.length` whose square root is the
RMS the loop computes. -/
def meanSquare (data : List Nat) : ℚ :=
  sumSquares data / (data.length : ℚ)

/-- The value handed to `setMicVolume`: `Math.min(1, rms * 5)`, with `rms`
the (non-negative) square root of `meanSquare`. -/
def micVolumeUpdate (rms : ℚ) : ℚ :=
  min 1 (rms * 5)

/-! ## Theorems -/

/-- Round trip of the base64 alphabet tables, together with the fact that
no alphabet character is the padding character. -/
theorem charToSextet_sextetToChar :
    ∀ v : Nat, v < 64 →
      charToSextet (sextetToChar v) = v ∧ sextetToChar v ≠ '=' := by
  decide

/-- Block-level round trip of the transport codec: decoding the base64
text produced from any byte list returns that byte list. -/
theorem decodeChunks_encodeChunks :
    ∀ l : List Nat, (∀ b ∈ l, b < 256) → decodeChunks (encodeChunks l) = l
  | [], _ => rfl
  | [b0], hl => by
      have h0 : b0 < 256 := hl b0 (by simp)
      have r0 := charToSextet_sextetToChar (b0 / 4) (by omega)
      have r1 := charToSextet_sextetToChar (b0 % 4 * 16) (by omega)
      simp only [encodeChunks, decodeChunks]
      rw [if_pos trivial, r0.1, r1.1]
      have hb : b0 / 4 * 4 + b0 % 4 * 16 / 16 = b0 := by omega
      rw [hb]
  | [b0, b1], hl => by
      have h0 : b0 < 256 := hl b0 (by simp)
      have h1 : b1 < 256 := hl b1 (by simp)
      have r0 := charToSextet_sextetToChar (b0 / 4) (by omega)
      have r1 := charToSextet_sextetToChar (b0 % 4 * 16 + b1 / 16) (by omega)
      have r2 := charToSextet_sextetToChar (b1 % 16 * 4) (by omega)
      simp only [encodeChunks, decodeChunks]
      rw [if_pos trivial, if_neg r2.2, r0.1, r1.1, r2.1]
      simp only [List.cons.injEq, and_true]
      omega
  | b0 :: b1 :: b2 :: rest, hl => by
      have h0 : b0 < 256 := hl b0 (by simp)
      have h1 : b1 < 256 := hl b1 (by simp)
      have h2 : b2 < 256 := hl b2 (by simp)
      have ih := decodeChunks_encodeChunks rest (fun b hb => hl b (by simp [hb]))
      have r0 := charToSextet_sextetToChar (b0 / 4) (by omega)
      have r1 := charToSextet_sextetToChar (b0 % 4 * 16 + b1 / 16) (by omega)
      have r2 := charToSextet_sextetToChar (b1 % 16 * 4 + b2 / 64) (by omega)
      have r3 := charToSextet_sextetToChar (b2 % 64) (by omega)
      simp only [encodeChunks, decodeChunks]
      rw [if_neg r2.2, if_neg r3.2, r0.1, r1.1, r2.1, r3.1, ih]
      simp only [List.cons.injEq, and_true]
      omega

/-- C7: for every byte array (every entry below 256, as `Uint8Array`
guarantees), decoding the encoded transport text reproduces the original
bytes exactly: `decode` is a left inverse of `encode`, so the pipeline is
lossy only at the float-to-int16 boundary and stable thereafter. -/
theorem decode_encode_roundtrip (bytes : List Nat)
    (h : ∀ b ∈ bytes, b < 256) : decode (encode bytes) = bytes :=
  decodeChunks_encodeChunks bytes h

/-- C7 witness: the round trip evaluated on a concrete byte array whose
length exercises the final two-byte padding group. -/
theorem decode_encode_roundtrip_witness :
    (∀ b ∈ [0, 1, 36, 127, 128, 255], b < 256) ∧
    decode (encode [0, 1, 36, 127, 128, 255]) = [0, 1, 36, 127, 128, 255] :=
  ⟨by decide, decode_encode_roundtrip [0, 1, 36, 127, 128, 255] (by decide)⟩

/-- C1 counterexample: a live session (promise held) receives a toolCall
whose name matches no declared handler; the handler emits no tool
response at all for it - the call is silently dropped instead of being
answered with a failure result, so no toolResult with the matching id is
ever sent. -/
theorem toolCall_unknown_dropped :
    toolResponses (toolCallStep (some 0) [⟨"call-1", "unknown_tool"⟩]) = [] ∧
    ¬ (toolResponses (toolCallStep (some 0)
        [⟨"call-1", "unknown_tool"⟩])).length = 1 :=
  ⟨rfl, by decide⟩

/-- C1 (amended): over a live session, every inbound toolCall named
`refresh_race_data` - the only declared handler - is answered by exactly
one toolResult carrying the same id and name; a toolCall with any other
name produces no toolResult at all. -/
theorem toolCall_responses_characterized (session : Nat)
    (calls : List FunctionCall) :
    toolResponses (toolCallStep (some session) calls) =
      (calls.filter (fun fc => fc.name = "refresh_race_data")).map
        (fun fc => ⟨fc.id, fc.name, toolResultText⟩) := by
  induction calls with
  | nil => rfl
  | cons fc rest ih =>
      by_cases h : fc.name = "refresh_race_data"
      · simp [toolCallStep, toolResponses, h, List.filterMap_append,
          List.filterMap_cons] at ih ⊢
        exact ih
      · simp [toolCallStep, toolResponses, h, List.filterMap_append,
          List.filterMap_cons] at ih ⊢
        exact ih

/-- C2 at the failing input: after model deltas `"Hel"` and `"lo"` in two
messages the live accumulator correctly holds `"Hello"`, yet the
following `turnComplete` message commits no turn at all - the commit
reads the connect-time closure snapshot of the accumulators (empty) plus
only the delta carried in the `turnComplete` message itself, not the
accumulated state. -/
theorem transcript_turn_lost :
    (processMessages "" "" 0 (staleClosureMessages.take 2)
        {}).currentModelTranscription = "Hello" ∧
    (processMessages "" "" 0 staleClosureMessages
        {}).transcriptionHistory = [] :=
  ⟨by decide, by decide⟩

/-- C4 counterexample: handling `interrupted` in a state whose playback
cursor is at 5 s while the device clock reads 3 s resets
`nextAudioStartTime` to the literal 0, not to the clock value 3; and the
disconnect path (`cleanup`) does not reset it at all. -/
theorem interrupted_reset_counterexample :
    (interruptedStep { interrupted := true }
        interruptedExampleState).1.nextAudioStartTime = 0 ∧
    ¬ (interruptedStep { interrupted := true }
        interruptedExampleState).1.nextAudioStartTime = 3 ∧
    (cleanup interruptedExampleState).1.nextAudioStartTime = 5 :=
  ⟨rfl, by decide, rfl⟩

/-- C4 (amended): handling `interrupted` stops every currently scheduled
or playing source, leaves the playing set empty, and resets
`nextAudioStartTime` to 0 rather than to the device clock (the next
enqueue then clamps to the clock via `max`); the disconnect path stops
every source and clears the set too, but leaves `nextAudioStartTime`
unchanged. -/
theorem interrupted_stops_all (s : CompState) :
    (interruptedStep { interrupted := true } s).1.playingAudioSources = [] ∧
    (interruptedStep { interrupted := true } s).1.nextAudioStartTime = 0 ∧
    (interruptedStep { interrupted := true } s).2 =
      s.playingAudioSources.map Effect.stopSource ∧
    (cleanup s).1.playingAudioSources = [] ∧
    (∀ h ∈ s.playingAudioSources, Effect.stopSource h ∈ (cleanup s).2) ∧
    (cleanup s).1.nextAudioStartTime = s.nextAudioStartTime := by
  refine ⟨rfl, rfl, rfl, rfl, ?_, rfl⟩
  intro h hh
  have hm : Effect.stopSource h ∈ s.playingAudioSources.map Effect.stopSource :=
    List.mem_map_of_mem _ hh
  simp only [cleanup, List.mem_append]
  tauto

/-- C5: teardown is idempotent - a second `cleanup` returns the same
state, emits no release effect at all (so nothing is double-released and
no throwing release call is reached), and the ResourceSet is empty after
each of the two calls. -/
theorem cleanup_idempotent (s : CompState) :
    (cleanup (cleanup s).1).1 = (cleanup s).1 ∧
    (cleanup (cleanup s).1).2 = [] ∧
    resourcesEmpty (cleanup s).1 ∧
    resourcesEmpty (cleanup (cleanup s).1).1 :=
  ⟨rfl, rfl, ⟨rfl, rfl, rfl, rfl, rfl, rfl, rfl, rfl⟩,
   ⟨rfl, rfl, rfl, rfl, rfl, rfl, rfl, rfl⟩⟩

/-- C6: every connect attempt that fails during acquisition - missing
API key, denied microphone permission, a failing `new AudioContext`
allocation, or a rejecting `resume()` - passes through the Connecting
phase (every intermediate state has `isConnecting = true`), ends Idle
(both flags false), rolls the ResourceSet back to empty even when the
failure struck after the microphone (and possibly both contexts) had
already been acquired, surfaces a user-facing error, and leaves the guard
of a subsequent `handleConnect` open. -/
theorem connect_failure_transitions (env : ConnectEnv) (s : CompState)
    (hLive : s.isLive = false) (hConn : s.isConnecting = false)
    (hFail : env.apiKeyPresent = false ∨ env.micGranted = false ∨
      env.inputContextOk = false ∨ env.outputContextOk = false ∨
      env.inputResumeOk = false ∨ env.outputResumeOk = false) :
    (handleConnect env s).2 ≠ [] ∧
    (∀ t ∈ (handleConnect env s).2, t.isConnecting = true) ∧
    (handleConnect env s).1.isConnecting = false ∧
    (handleConnect env s).1.isLive = false ∧
    resourcesEmpty (handleConnect env s).1 ∧
    (handleConnect env s).1.error ≠ none ∧
    ((handleConnect env s).1.isLive ||
      (handleConnect env s).1.isConnecting) = false ∧
    (env.apiKeyPresent = true → env.micGranted = true →
      ∃ t ∈ (handleConnect env s).2,
        t.mediaStream = some env.micHandle) ∧
    (env.apiKeyPresent = true → env.micGranted = true →
      env.inputContextOk = true → env.outputContextOk = true →
      ∃ t ∈ (handleConnect env s).2,
        t.mediaStream = some env.micHandle ∧
        t.inputAudioContext = some env.inputContextHandle ∧
        t.outputAudioContext = some env.outputContextHandle) := by
  have hguard : (s.isLive || s.isConnecting) = false := by
    rw [hLive, hConn]; rfl
  cases hk : env.apiKeyPresent <;> cases hm : env.micGranted <;>
    cases hic : env.inputContextOk <;> cases hoc : env.outputContextOk <;>
    cases hir : env.inputResumeOk <;> cases hor : env.outputResumeOk <;>
    simp_all [handleConnect, connectCatch, hguard, cleanup, resourcesEmpty]

/-- C6 witness: the late-failure scenario from a fresh Idle state - the
microphone is acquired and both contexts allocated before the input
context's `resume()` rejects - evaluated concretely. -/
theorem connect_failure_witness :
    (({} : CompState).isLive = false ∧ ({} : CompState).isConnecting = false ∧
      (resumeFailEnv.apiKeyPresent = false ∨ resumeFailEnv.micGranted = false ∨
        resumeFailEnv.inputContextOk = false ∨
        resumeFailEnv.outputContextOk = false ∨
        resumeFailEnv.inputResumeOk = false ∨
        resumeFailEnv.outputResumeOk = false)) ∧
    ((handleConnect resumeFailEnv {}).2 ≠ [] ∧
     (∀ t ∈ (handleConnect resumeFailEnv {}).2, t.isConnecting = true) ∧
     (handleConnect resumeFailEnv {}).1.isConnecting = false ∧
     (handleConnect resumeFailEnv {}).1.isLive = false ∧
     resourcesEmpty (handleConnect resumeFailEnv {}).1 ∧
     (handleConnect resumeFailEnv {}).1.error ≠ none ∧
     ((handleConnect resumeFailEnv {}).1.isLive ||
       (handleConnect resumeFailEnv {}).1.isConnecting) = false ∧
     (resumeFailEnv.apiKeyPresent = true → resumeFailEnv.micGranted = true →
       ∃ t ∈ (handleConnect resumeFailEnv {}).2,
         t.mediaStream = some resumeFailEnv.micHandle) ∧
     (resumeFailEnv.apiKeyPresent = true → resumeFailEnv.micGranted = true →
       resumeFailEnv.inputContextOk = true →
       resumeFailEnv.outputContextOk = true →
       ∃ t ∈ (handleConnect resumeFailEnv {}).2,
         t.mediaStream = some resumeFailEnv.micHandle ∧
         t.inputAudioContext = some resumeFailEnv.inputContextHandle ∧
         t.outputAudioContext = some resumeFailEnv.outputContextHandle)) :=
  ⟨⟨rfl, rfl, by decide⟩,
   connect_failure_transitions resumeFailEnv {} rfl rfl (by decide)⟩

/-- Wrapping is the identity on integers already in the signed 16-bit
range. -/
theorem wrapInt16_eq_self (t : ℤ) (h1 : -32768 ≤ t) (h2 : t ≤ 32767) :
    wrapInt16 t = t := by
  unfold wrapInt16
  have hmod : (t + 32768) % 65536 = t + 32768 :=
    Int.emod_eq_of_lt (by omega) (by omega)
  omega

/-- C8 counterexample: the boundary sample 1.0 is quantized to -32768 -
the value 32768 is not representable and is not clamped but wrapped by
the `Int16Array` store, flipping the sign of the sample. -/
theorem quantize_one_wraps :
    quantizeSample 1 = -32768 ∧ ¬ (0 : ℤ) ≤ quantizeSample 1 := by
  have hone : quantizeSample 1 = -32768 := by
    unfold quantizeSample ratTrunc wrapInt16
    have hcast : ((1 : ℚ) * 32768) = ((32768 : ℤ) : ℚ) := by norm_num
    rw [if_pos (by norm_num), hcast, Int.floor_intCast]
    decide
  exact ⟨hone, by rw [hone]; decide⟩

/-- C8 (amended): for every normalized sample in [-1, 1), the conversion
stores exactly the truncation of `s * 32768`, which lies in the signed
16-bit range and preserves the sample's sign; the boundary 1.0 itself
wraps (see the counterexample), so the exact-representation guarantee
holds on [-1, 1) only. -/
theorem quantize_in_range (s : ℚ) (h1 : -1 ≤ s) (h2 : s < 1) :
    quantizeSample s = ratTrunc (s * 32768) ∧
    -32768 ≤ quantizeSample s ∧ quantizeSample s ≤ 32767 ∧
    (0 ≤ s → 0 ≤ quantizeSample s) ∧ (s ≤ 0 → quantizeSample s ≤ 0) := by
  unfold quantizeSample
  have hq1 : (-32768 : ℚ) ≤ s * 32768 := by nlinarith
  have hq2 : s * 32768 < 32768 := by nlinarith
  have ht1 : -32768 ≤ ratTrunc (s * 32768) := by
    unfold ratTrunc
    split_ifs with h
    · exact le_trans (by norm_num) (Int.floor_nonneg.mpr h)
    · have hc : ((-32768 : ℤ) : ℚ) ≤ (⌈s * 32768⌉ : ℚ) :=
        le_trans (by push_cast; linarith) (Int.le_ceil _)
      exact_mod_cast hc
  have ht2 : ratTrunc (s * 32768) ≤ 32767 := by
    unfold ratTrunc
    split_ifs with h
    · have hf : ⌊s * 32768⌋ < 32768 :=
        Int.floor_lt.mpr (by push_cast; linarith)
      omega
    · have hc : ⌈s * 32768⌉ ≤ (0 : ℤ) :=
        Int.ceil_le.mpr (by push_cast; linarith [le_of_not_le h])
      omega
  have heq : wrapInt16 (ratTrunc (s * 32768)) = ratTrunc (s * 32768) :=
    wrapInt16_eq_self _ ht1 ht2
  rw [heq]
  refine ⟨rfl, ht1, ht2, ?_, ?_⟩
  · intro hs
    have hq : 0 ≤ s * 32768 := mul_nonneg hs (by norm_num)
    unfold ratTrunc
    rw [if_pos hq]
    exact Int.floor_nonneg.mpr hq
  · intro hs
    have hq : s * 32768 ≤ 0 := mul_nonpos_of_nonpos_of_nonneg hs (by norm_num)
    unfold ratTrunc
    split_ifs with h
    · have h0 : s * 32768 = 0 := le_antisymm hq h
      rw [h0]
      simp
    · exact Int.ceil_le.mpr (by push_cast; linarith [hq])

/-- C8 witness: the amended guarantee evaluated at the sample 1/2. -/
theorem quantize_in_range_witness :
    ((-1 : ℚ) ≤ 1 / 2 ∧ (1 / 2 : ℚ) < 1) ∧
    (quantizeSample (1 / 2) = ratTrunc ((1 / 2) * 32768) ∧
     -32768 ≤ quantizeSample (1 / 2) ∧ quantizeSample (1 / 2) ≤ 32767 ∧
     ((0 : ℚ) ≤ 1 / 2 → 0 ≤ quantizeSample (1 / 2)) ∧
     ((1 / 2 : ℚ) ≤ 0 → quantizeSample (1 / 2) ≤ 0)) :=
  ⟨⟨by norm_num, by norm_num⟩,
   quantize_in_range (1 / 2) (by norm_num) (by norm_num)⟩

/-- Every capture event preserves the capture invariant. -/
theorem captureStep_inv (s : CaptureState) (e : CaptureEvent)
    (h : CaptureInv s) : CaptureInv (captureStep s e) := by
  obtain ⟨hf, ht⟩ := h
  cases e with
  | audioProcess f =>
      rcases hsp : s.sessionPromise with _ | p <;>
        rcases htd : s.tornDown <;>
        simp_all [captureStep, CaptureInv]
  | promiseResolve =>
      rcases hps : s.pendingSends with _ | ⟨f, rest⟩ <;>
        rcases htd : s.tornDown <;>
        simp_all [captureStep, CaptureInv]
  | teardown =>
      rcases htd : s.tornDown <;> simp_all [captureStep, CaptureInv]

/-- Folding capture events preserves the capture invariant. -/
theorem captureFold_inv (evs : List CaptureEvent) (s : CaptureState)
    (hs : CaptureInv s) : CaptureInv (evs.foldl captureStep s) := by
  induction evs generalizing s with
  | nil => exact hs
  | cons e rest ih => exact ih _ (captureStep_inv s e hs)

/-- Every state reachable from a live session satisfies the capture
invariant. -/
theorem captureRun_inv (h : Nat) (evs : List CaptureEvent) :
    CaptureInv (captureRun h evs) :=
  captureFold_inv evs { sessionPromise := some h }
    ⟨fun _ => ⟨rfl, rfl⟩, fun h2 => Bool.noConfusion h2⟩

/-- C9 counterexample: a capture callback fires while the session is
live, teardown runs before the registered promise continuation does, and
the continuation still transmits the frame - a frame is sent after
teardown has completed, contradicting the claim that every late send
observes the cleared handle and no-ops. -/
theorem capture_inflight_send_after_teardown :
    (captureRun 0 [CaptureEvent.audioProcess 7, CaptureEvent.teardown,
        CaptureEvent.promiseResolve]).sentAfterTeardown = [7] ∧
    ¬ (captureRun 0 [CaptureEvent.audioProcess 7, CaptureEvent.teardown,
        CaptureEvent.promiseResolve]).sentAfterTeardown = [] :=
  ⟨rfl, by decide⟩

/-- C9 (amended): after teardown the session ref is cleared and a capture
callback that fires is a strict no-op (nothing sent, nothing registered);
however sends already registered on the session promise when teardown ran
are not cancelled: the frames pending at teardown are exactly the frames
since transmitted after teardown plus those still pending, so an
in-flight send may still transmit after teardown returns. -/
theorem capture_teardown_race (h f : Nat) (evs : List CaptureEvent)
    (ht : (captureRun h evs).tornDown = true) :
    (captureRun h evs).sessionPromise = none ∧
    captureStep (captureRun h evs) (CaptureEvent.audioProcess f) =
      captureRun h evs ∧
    (captureRun h evs).pendingAtTeardown =
      (captureRun h evs).sentAfterTeardown ++
        (captureRun h evs).pendingSends := by
  obtain ⟨-, ht2⟩ := captureRun_inv h evs
  obtain ⟨hsp, heq⟩ := ht2 ht
  refine ⟨hsp, ?_, heq⟩
  simp [captureStep, hsp]

/-- C9 witness: the amended guarantee evaluated on a run that tears down
immediately. -/
theorem capture_teardown_race_witness :
    (captureRun 0 [CaptureEvent.teardown]).tornDown = true ∧
    ((captureRun 0 [CaptureEvent.teardown]).sessionPromise = none ∧
     captureStep (captureRun 0 [CaptureEvent.teardown])
        (CaptureEvent.audioProcess 1) = captureRun 0 [CaptureEvent.teardown] ∧
     (captureRun 0 [CaptureEvent.teardown]).pendingAtTeardown =
       (captureRun 0 [CaptureEvent.teardown]).sentAfterTeardown ++
         (captureRun 0 [CaptureEvent.teardown]).pendingSends) :=
  ⟨rfl, capture_teardown_race 0 1 [CaptureEvent.teardown] rfl⟩

/-- C10: the mic volume exposed to the UI stays in the unit interval -
the RMS radicand is non-negative for every analyser array, the published
value `min 1 (rms * 5)` lies in [0, 1] for every non-negative rms, and
teardown resets the published volume to exactly 0. -/
theorem micVolume_bounds (r : ℚ) (hr : 0 ≤ r) (data : List Nat)
    (s : CompState) :
    0 ≤ meanSquare data ∧
    0 ≤ micVolumeUpdate r ∧ micVolumeUpdate r ≤ 1 ∧
    (cleanup s).1.micVolume = 0 := by
  refine ⟨?_, ?_, min_le_left _ _, rfl⟩
  · unfold meanSquare sumSquares
    apply div_nonneg
    · apply List.sum_nonneg
      intro x hx
      simp only [List.mem_map] at hx
      obtain ⟨b, -, rfl⟩ := hx
      exact mul_self_nonneg _
    · exact Nat.cast_nonneg _
  · exact le_min (by norm_num) (mul_nonneg hr (by norm_num))

/-- C10 witness: the bound evaluated at the zero RMS of the centred
analyser array `[128]` and a fresh component state. -/
theorem micVolume_bounds_witness :
    (0 : ℚ) ≤ 0 ∧
    (0 ≤ meanSquare [128] ∧
     0 ≤ micVolumeUpdate 0 ∧ micVolumeUpdate 0 ≤ 1 ∧
     (cleanup {}).1.micVolume = 0) :=
  ⟨le_refl 0, micVolume_bounds 0 (le_refl 0) [128] {}⟩

/-- Chunk durations are never negative. -/
theorem chunkDuration_nonneg (bytes : List Nat) : 0 ≤ chunkDuration bytes := by
  unfold chunkDuration
  positivity

/-- Evaluation of one audio step when the output context is held. -/
theorem audioStep_some (clock : ℚ) (bytes : List Nat) (s : CompState)
    (hSrc c : Nat) (hctx : s.outputAudioContext = some c) :
    audioStep clock (audioMsg bytes) s hSrc =
      ({ s with
          nextAudioStartTime :=
            max s.nextAudioStartTime clock + chunkDuration bytes,
          playingAudioSources := s.playingAudioSources ++ [hSrc] },
       [Effect.startSource hSrc (max s.nextAudioStartTime clock)]) := by
  simp [audioStep, audioMsg, hctx]

/-- Evaluation of one audio step when the output context is absent. -/
theorem audioStep_none (clock : ℚ) (bytes : List Nat) (s : CompState)
    (hSrc : Nat) (hctx : s.outputAudioContext = none) :
    audioStep clock (audioMsg bytes) s hSrc = (s, []) := by
  simp [audioStep, audioMsg, hctx]

/-- C3: along every sequence of enqueued inbound audio chunks,
`nextAudioStartTime` is non-decreasing across enqueues; every scheduled
start time is at least the device clock value read during its enqueue (no
chunk scheduled in the past); after each enqueue `nextAudioStartTime`
equals that chunk's start plus its duration (its scheduled end); and each
chunk's start is at least the cursor left by the previous chunk, i.e. at
least the previous chunk's scheduled end (no overlap). -/
theorem playback_schedule_invariants :
    ∀ (l : List (ℚ × List Nat × Nat)) (s0 : CompState),
    List.Chain' (fun a b => a.nextAudioStartTime ≤ b.nextAudioStartTime)
      (s0 :: (audioTrace s0 l).map AudioEntry.state) ∧
    (∀ e ∈ audioTrace s0 l, ∀ st ∈ startsOf e.effects, e.clock ≤ st) ∧
    (∀ e ∈ audioTrace s0 l, ∀ st ∈ startsOf e.effects,
        e.state.nextAudioStartTime = st + chunkDuration e.bytes) ∧
    List.Chain' (fun a b => ∀ st ∈ startsOf b.effects,
        a.state.nextAudioStartTime ≤ st)
      (baseEntry s0 :: audioTrace s0 l) := by
  intro l
  induction l with
  | nil =>
      intro s0
      refine ⟨?_, ?_, ?_, ?_⟩ <;> simp [audioTrace]
  | cons p rest ih =>
      intro s0
      obtain ⟨t, bytes, hSrc⟩ := p
      cases hctx : s0.outputAudioContext with
      | none =>
          have hstep := audioStep_none t bytes s0 hSrc hctx
          obtain ⟨ih1, ih2, ih3, ih4⟩ := ih s0
          refine ⟨?_, ?_, ?_, ?_⟩
          · simp only [audioTrace, hstep, List.map_cons]
            exact List.Chain'.cons (le_refl _) ih1
          · intro e he st hst
            simp only [audioTrace, hstep, List.mem_cons] at he
            rcases he with he | he
            · subst he
              simp [startsOf] at hst
            · exact ih2 e he st hst
          · intro e he st hst
            simp only [audioTrace, hstep, List.mem_cons] at he
            rcases he with he | he
            · subst he
              simp [startsOf] at hst
            · exact ih3 e he st hst
          · have h4 := List.chain'_cons'.mp ih4
            simp only [audioTrace, hstep]
            refine List.chain'_cons.mpr ⟨?_, List.chain'_cons'.mpr ⟨?_, h4.2⟩⟩
            · intro st hst
              simp [startsOf] at hst
            · intro y hy st hst
              exact h4.1 y hy st hst
      | some c =>
          have hstep := audioStep_some t bytes s0 hSrc c hctx
          obtain ⟨ih1, ih2, ih3, ih4⟩ := ih { s0 with
            nextAudioStartTime :=
              max s0.nextAudioStartTime t + chunkDuration bytes,
            playingAudioSources := s0.playingAudioSources ++ [hSrc] }
          refine ⟨?_, ?_, ?_, ?_⟩
          · simp only [audioTrace, hstep, List.map_cons]
            refine List.Chain'.cons ?_ ih1
            exact le_trans (le_max_left _ _)
              (le_add_of_nonneg_right (chunkDuration_nonneg bytes))
          · intro e he st hst
            simp only [audioTrace, hstep, List.mem_cons] at he
            rcases he with he | he
            · subst he
              simp only [startsOf, List.filterMap_cons, List.filterMap_nil,
                List.mem_singleton] at hst
              subst hst
              exact le_max_right _ _
            · exact ih2 e he st hst
          · intro e he st hst
            simp only [audioTrace, hstep, List.mem_cons] at he
            rcases he with he | he
            · subst he
              simp only [startsOf, List.filterMap_cons, List.filterMap_nil,
                List.mem_singleton] at hst
              subst hst
              rfl
            · exact ih3 e he st hst
          · have h4 := List.chain'_cons'.mp ih4
            simp only [audioTrace, hstep]
            refine List.chain'_cons.mpr ⟨?_, List.chain'_cons'.mpr ⟨?_, h4.2⟩⟩
            · intro st hst
              simp only [startsOf, List.filterMap_cons, List.filterMap_nil,
                List.mem_singleton] at hst
              subst hst
              exact le_max_left _ _
            · intro y hy st hst
              exact h4.1 y hy st hst

end StrikeTips
